import Mathlib

/-!
# Verification of the walletconnect-demo payment reconciliation core

Shallow embedding of the order/payment state machine and multi-source
reconciliation logic of the repository:

* `src/src/lib/dynamo.ts` (in-memory variant): `updatePaymentStatus`,
  `scanOrdersByMerchantAddress`.
* `src/unnamed/part_006`: the create-order, Alchemy-webhook
  (`processActivity`) and Mesh-webhook (`POST`) handlers.
* `src/src/app/api/check-status/route.ts` and `src/unnamed/part_005`:
  the poll-channel status-check handler (`GET`).
* `src/src/lib/blockchain.ts` and `src/unnamed/part_003`: the amount
  tolerance filters of `checkForTransfers`, and `parseAmount`.

Conventions of the embedding:

* ISO-8601 timestamp strings are modelled as `Nat` instants (the string
  order used by `new Date(x) < new Date()` coincides with instant order).
* JS `number` fiat amounts are modelled as `ℚ`; the amounts compared by
  the code are small decimals far from any binary-float rounding boundary.
* A JS `Partial<...>` update object is modelled by a structure of
  `Option` fields restricted to the fields the call sites actually pass
  (`none` = key absent).
* The key-value `Map` stores are modelled as association lists in
  insertion order (a JS `Map` preserves insertion order, and `set` on an
  existing key keeps its position).
* Fallible outbound I/O (RPC scan, provider poll) is modelled by a
  `SignalResult` value supplied to the handler.
-/

namespace WalletconnectDemo

/-- JS `String.prototype.toLowerCase()` on the ASCII strings handled by
this code (hex addresses, status words, network names): lower-case every
character.  Defined directly over the character list so that it reduces
in the kernel (core `String.toLower` is defined by well-founded recursion
over byte positions and does not). -/
def strToLower (s : String) : String :=
  ⟨s.data.map Char.toLower⟩

/-- The payment status vocabulary from `src/src/lib/types.ts` (`PaymentStatus`). -/
inductive PaymentStatus where
  | pending
  | scanning
  | authorizing
  | processing
  | completed
  | failed
  | expired
  | cancelled
  deriving DecidableEq, Repr

/-- Terminal states per the spec's state machine (§4.3): `completed`,
`failed`, `expired`, `cancelled`. -/
def PaymentStatus.isTerminal : PaymentStatus → Bool
  | .completed => true
  | .failed => true
  | .expired => true
  | .cancelled => true
  | _ => false

/-- The `Order` model from `src/src/lib/types.ts` (fields relevant to the
claims; `currency`, `description` and `items` carry no reconciliation
logic and are omitted). -/
structure Order where
  orderId : String
  amount : ℚ
  stablecoin : String
  merchantWalletAddress : String
  status : PaymentStatus
  createdAt : Nat
  updatedAt : Nat
  expiresAt : Nat
  networkId : String
  deriving DecidableEq, Repr

/-- `StatusHistoryEntry` from `src/src/lib/types.ts`. -/
structure StatusHistoryEntry where
  status : PaymentStatus
  timestamp : Nat
  message : Option String
  deriving DecidableEq, Repr

/-- `PaymentStatusRecord` from `src/src/lib/types.ts`.  The optional
`statusHistory` field is modelled as a plain list: the code always reads
it through `existing?.statusHistory || []`, so a missing field and an
empty list are indistinguishable. -/
structure PaymentStatusRecord where
  orderId : String
  status : PaymentStatus
  transactionHash : Option String
  senderAddress : Option String
  networkId : Option String
  stablecoin : Option String
  amount : Option ℚ
  errorMessage : Option String
  meshTransferId : Option String
  updatedAt : Nat
  statusHistory : List StatusHistoryEntry
  deriving DecidableEq, Repr

/-- The `Partial<PaymentStatusRecord>` argument of `updatePaymentStatus`,
restricted to the fields its call sites pass (mesh webhook, alchemy
webhook, check-status).  No call site passes `orderId`, `updatedAt` or
`statusHistory`.  `none` models an absent key. -/
structure PaymentStatusUpdates where
  status : Option PaymentStatus
  transactionHash : Option String
  networkId : Option String
  stablecoin : Option String
  amount : Option ℚ
  senderAddress : Option String
  errorMessage : Option String
  deriving DecidableEq, Repr

/-- The status-history construction inside `updatePaymentStatus`
(`src/src/lib/dynamo.ts`, in-memory variant, lines 158-169):

```js
let statusHistory = existing?.statusHistory || [];
if (updates.status && updates.status !== existing?.status) {
  statusHistory = [...statusHistory,
    { status: updates.status, timestamp: new Date().toISOString(),
      message: updates.errorMessage }];
}
```

`updates.status !== existing?.status` is true when `existing` is absent
(`undefined` differs from every status string) or when the statuses
differ, i.e. exactly when `existing.map (·.status) ≠ some s`. -/
def nextStatusHistory (existing : Option PaymentStatusRecord)
    (updates : PaymentStatusUpdates) (now : Nat) : List StatusHistoryEntry :=
  let statusHistory := (existing.map (·.statusHistory)).getD []
  match updates.status with
  | some s =>
      if existing.map (·.status) ≠ some s then
        statusHistory ++ [{ status := s, timestamp := now, message := updates.errorMessage }]
      else
        statusHistory
  | none => statusHistory

/-- `updatePaymentStatus` (`src/src/lib/dynamo.ts`, in-memory variant,
lines 152-183).  The record written back is

```js
{ orderId, status: existing?.status || "pending",
  updatedAt: new Date().toISOString(),
  ...existing, ...updates, statusHistory }
```

so by JS spread order each field is: the value in `updates` if that key
is passed, else the value in `existing` if the record exists, else the
literal default.  In particular `updatedAt` is the pre-spread fresh
timestamp only when no record existed: for an existing record the
spread of `existing` overwrites it and no call site passes `updatedAt`,
so the field keeps its previous value. -/
def updatePaymentStatus (existing : Option PaymentStatusRecord)
    (orderId : String) (updates : PaymentStatusUpdates) (now : Nat) :
    PaymentStatusRecord :=
  { orderId := (existing.map (·.orderId)).getD orderId
    status := updates.status.getD ((existing.map (·.status)).getD .pending)
    transactionHash := (updates.transactionHash.map some).getD (existing.bind (·.transactionHash))
    senderAddress := (updates.senderAddress.map some).getD (existing.bind (·.senderAddress))
    networkId := (updates.networkId.map some).getD (existing.bind (·.networkId))
    stablecoin := (updates.stablecoin.map some).getD (existing.bind (·.stablecoin))
    amount := (updates.amount.map some).getD (existing.bind (·.amount))
    errorMessage := (updates.errorMessage.map some).getD (existing.bind (·.errorMessage))
    meshTransferId := existing.bind (·.meshTransferId)
    updatedAt := (existing.map (·.updatedAt)).getD now
    statusHistory := nextStatusHistory existing updates now }

/-- `scanOrdersByMerchantAddress` (`src/src/lib/dynamo.ts`, in-memory
variant, lines 240-261).  The store is the list of orders in insertion
order; `statuses` is the optional filter argument.

```js
const normalizedAddress = merchantAddress.toLowerCase();
return allOrders.filter(order => {
  if (order.merchantWalletAddress.toLowerCase() !== normalizedAddress) return false;
  if (statuses && statuses.length > 0) return statuses.includes(order.status);
  return true;
});
``` -/
def scanOrdersByMerchantAddress (orders : List Order)
    (merchantAddress : String) (statuses : Option (List PaymentStatus)) :
    List Order :=
  let normalizedAddress := strToLower merchantAddress
  orders.filter fun order =>
    if strToLower order.merchantWalletAddress ≠ normalizedAddress then
      false
    else
      match statuses with
      | some l => if l.length > 0 then l.contains order.status else true
      | none => true

/-! ## Mesh (transfer-provider) webhook — `src/unnamed/part_006`, lines 547-624 -/

/-- The fields of `MeshWebhookPayload` used by the handler's state
update.  Numeric `DestinationAmount` is modelled as `ℚ`. -/
structure MeshWebhookPayload where
  userId : String
  transferStatus : String
  txHash : Option String
  chain : Option String
  token : Option String
  destinationAmount : Option ℚ
  deriving DecidableEq, Repr

/-- The provider-status mapping of the Mesh webhook handler
(`src/unnamed/part_006`, lines 597-604):

```js
const statusMap = { pending: "processing", succeeded: "completed", failed: "failed" };
const newStatus = statusMap[payload.TransferStatus.toLowerCase()] || "processing";
``` -/
def meshStatusMap (transferStatus : String) : PaymentStatus :=
  if strToLower transferStatus = "pending" then .processing
  else if strToLower transferStatus = "succeeded" then .completed
  else if strToLower transferStatus = "failed" then .failed
  else .processing

/-- The update object the Mesh webhook passes to `updatePaymentStatus`
(`src/unnamed/part_006`, lines 607-613).  An absent payload field is
modelled as no override of the stored column; the JS spread would
instead overwrite such a column with `undefined`, a difference that only
concerns the optional observability columns, never `status`,
`updatedAt` or `statusHistory`, and the claims settled against this
definition are instantiated with all payload fields present. -/
def meshWebhookUpdates (p : MeshWebhookPayload) : PaymentStatusUpdates :=
  { status := some (meshStatusMap p.transferStatus)
    transactionHash := p.txHash
    networkId := p.chain.map strToLower
    stablecoin := p.token
    amount := p.destinationAmount
    senderAddress := none
    errorMessage := none }

/-- The state change performed by the Mesh webhook handler on the
payment-status record stored under the extracted order id
(`src/unnamed/part_006`, lines 588-613): it calls `updatePaymentStatus`
with the mapped status, unconditionally on the current stored status.
The handler never touches the `Order` record. -/
def meshWebhookApply (p : MeshWebhookPayload)
    (existing : Option PaymentStatusRecord) (orderId : String) (now : Nat) :
    PaymentStatusRecord :=
  updatePaymentStatus existing orderId (meshWebhookUpdates p) now

/-- Outcome of a webhook handler's signature gate. -/
inductive WebhookAuthResult where
  | rejected401
  | processed
  deriving DecidableEq, Repr

/-- The signature gate of the Mesh webhook (`src/unnamed/part_006`,
lines 560-573).  `signatureValid` abstracts
`verifySignature(rawBody, signature, webhookSecret)` — HMAC-SHA256 of
the raw payload compared with `crypto.timingSafeEqual`.

```js
if (webhookSecret && signature) {
  if (!isValid) return 401;
} else if (webhookSecret && !signature) {
  console.warn(...);      // continues to process the payload
}
``` -/
def meshWebhookAuth (secretConfigured signatureProvided signatureValid : Bool) :
    WebhookAuthResult :=
  if secretConfigured ∧ signatureProvided then
    if signatureValid then .processed else .rejected401
  else
    .processed

/-- The signature gate of the Alchemy (chain-indexer) webhook
(`src/unnamed/part_006`, lines 327-344): with a signing key configured,
a missing header and an invalid signature are both rejected with 401;
with no key configured verification is skipped.

```js
if (signingKey) {
  if (!signature) return 401;
  if (!verifyAlchemySignature(rawBody, signature, signingKey)) return 401;
}
``` -/
def alchemyWebhookAuth (signingKeyConfigured signatureProvided signatureValid : Bool) :
    WebhookAuthResult :=
  if signingKeyConfigured then
    if !signatureProvided then .rejected401
    else if !signatureValid then .rejected401
    else .processed
  else
    .processed

/-! ## Alchemy activity matcher — `src/unnamed/part_006`, lines 373-451 -/

/-- `STABLECOINS` (`src/unnamed/part_006`, line 282). -/
def STABLECOINS : List String :=
  ["USDC", "USDT", "DAI", "BUSD", "FRAX", "TUSD", "PYUSD"]

/-- The fields of an `AlchemyActivity` used by `processActivity`.
`value` is the already-decoded token amount (a JS `number`). -/
structure AlchemyActivity where
  hash : String
  fromAddress : String
  toAddress : String
  value : ℚ
  asset : String
  category : String
  deriving DecidableEq, Repr

/-- The per-order amount predicate of `processActivity`
(`src/unnamed/part_006`, lines 418-423):

```js
const tolerance = 0.05;
const diff = Math.abs(order.amount - amount);
const percentDiff = diff / order.amount;
return percentDiff <= tolerance;
``` -/
def amountMatches (order : Order) (amount : ℚ) : Bool :=
  |order.amount - amount| / order.amount ≤ 5 / 100

/-- `processActivity` (`src/unnamed/part_006`, lines 373-432), reduced to
the order selection it performs: skip non-token and non-stablecoin
activity, scan the store for `pending`/`scanning` orders of the
destination address, and take `Array.prototype.find` — the FIRST
tolerance-matching order in store (insertion) order. -/
def processActivity (orders : List Order) (activity : AlchemyActivity) :
    Option Order :=
  if activity.category ≠ "token" ∧ activity.category ≠ "erc20" then none
  else if ¬ STABLECOINS.contains activity.asset then none
  else
    let merchantAddress := strToLower activity.toAddress
    let pendingOrders :=
      scanOrdersByMerchantAddress orders merchantAddress (some [.pending, .scanning])
    pendingOrders.find? (fun order => amountMatches order activity.value)

/-- The `updateOrderStatus(matchingOrder.orderId, "completed")` write of
`processActivity` (`src/unnamed/part_006`, line 436), applied to one
stored order: `updateOrderStatus` rewrites the record under the matched
`orderId` with the new status and a fresh `updatedAt`. -/
def applyActivityMatch (matched : Order) (now : Nat) (order : Order) : Order :=
  if order.orderId = matched.orderId then
    { order with status := .completed, updatedAt := now }
  else
    order

/-- The effect of one Alchemy-webhook activity on the order store: if the
matcher selects an order, its record is rewritten to `completed`;
otherwise the store is untouched (`src/unnamed/part_006`, lines 425-445). -/
def processActivityStore (orders : List Order) (activity : AlchemyActivity)
    (now : Nat) : List Order :=
  match processActivity orders activity with
  | some matched => orders.map (applyActivityMatch matched now)
  | none => orders

/-! ## Blockchain-scan amount tolerance — `src/src/lib/blockchain.ts`
lines 212-219 (5%) and `src/unnamed/part_003` lines 199-206 (1%) -/

/-- The loose amount filter of `checkForTransfers`
(`src/src/lib/blockchain.ts`, lines 212-219):

```js
const tolerance = expectedAmount * 0.05;
if (Math.abs(parsedAmount - expectedAmount) > tolerance) continue;  // reject
``` -/
def looseAmountCheck (parsedAmount expectedAmount : ℚ) : Bool :=
  if |parsedAmount - expectedAmount| > expectedAmount * (5 / 100) then false else true

/-- The strict amount filter of the `checkForTransfers` variant in
`src/unnamed/part_003`, lines 199-206:

```js
const tolerance = expectedAmount * 0.01;
if (Math.abs(parsedAmount - expectedAmount) > tolerance) continue;  // reject
``` -/
def strictAmountCheck (parsedAmount expectedAmount : ℚ) : Bool :=
  if |parsedAmount - expectedAmount| > expectedAmount * (1 / 100) then false else true

/-! ## Poll-channel status check — `src/unnamed/part_005` (GET), whose
expiry and provider-poll branches coincide with
`src/src/app/api/check-status/route.ts` lines 79-113 -/

/-- The fields of a blockchain `TransferEvent`
(`src/src/lib/blockchain.ts`, lines 36-46) consumed by the status-check
handler.  `amount` is the decimal string produced by `parseAmount`,
modelled by its exact value (the handler re-parses it with
`parseFloat`). -/
structure TransferEvent where
  transactionHash : String
  blockNumber : Nat
  networkId : String
  tokenSymbol : String
  amount : ℚ
  deriving DecidableEq, Repr

/-- `MonitoringResult` (`src/src/lib/blockchain.ts`, lines 48-52). -/
structure MonitoringResult where
  found : Bool
  transfer : Option TransferEvent
  deriving DecidableEq, Repr

/-- The `content` of a Mesh `getTransferStatus` response as read by the
status-check handler (`transferStatus.content.status`,
`transferStatus.content.transactionHash`). -/
structure MeshTransferContent where
  status : String
  transactionHash : Option String
  deriving DecidableEq, Repr

/-- Outcome of an outbound signal-source call: a value, or a transient
error (RPC timeout, provider API failure) raised as an exception in the
source and caught at the channel boundary. -/
inductive SignalResult (α : Type) where
  | ok (value : α)
  | err (message : String)
  deriving DecidableEq, Repr

/-- The opportunistic expiry check of the status-check handler
(`src/unnamed/part_005` lines 85-89, identical in
`src/src/app/api/check-status/route.ts` lines 79-83):

```js
if (new Date(order.expiresAt) < new Date() && order.status === "pending") {
  await updateOrderStatus(orderId, "expired");
  order.status = "expired";
}
```

Note the guard tests only `"pending"`, not `"scanning"`.
`updateOrderStatus` also bumps the stored `updatedAt`. -/
def checkExpiry (order : Order) (now : Nat) : Order :=
  if order.expiresAt < now ∧ order.status = .pending then
    { order with status := .expired, updatedAt := now }
  else
    order

/-- Result of one status-check call: the HTTP status, the reported
payment status, and the committed order / payment-status record. -/
structure CheckStatusResult where
  httpStatus : Nat
  reportedStatus : PaymentStatus
  order : Order
  paymentRecord : Option PaymentStatusRecord
  deriving DecidableEq, Repr

/-- The status-check handler `GET` (`src/unnamed/part_005`, lines
84-181) for an existing order, with its two outbound signal calls
supplied as `SignalResult`s:

1. expiry check (`checkExpiry`);
2. if the order is `pending`/`scanning`, the blockchain scan: a found
   transfer commits `completed` to the order and payment record; a
   thrown error is caught and ignored (lines 135-138);
3. if the payment record carries a `meshTransferId` and the order is
   `processing`, poll Mesh: map `completed → completed`,
   `failed → failed`, anything else no transition; a thrown error is
   caught and ignored (lines 165-168);
4. respond 200 with the resulting order status.

The route's variant without the blockchain branch
(`src/src/app/api/check-status/route.ts`) is this function with the
scan forced to `.ok ⟨false, none⟩`.  The handler's local (non-persisted)
patch of the response `paymentDetails` object in the Mesh branch is not
modelled; `paymentRecord` is the stored record. -/
def checkStatusGET (order : Order) (paymentDetails : Option PaymentStatusRecord)
    (blockchainScan : SignalResult MonitoringResult)
    (meshPoll : SignalResult MeshTransferContent) (now : Nat) :
    CheckStatusResult :=
  let order1 := checkExpiry order now
  let afterScan : Order × Option PaymentStatusRecord :=
    if order1.status = .pending ∨ order1.status = .scanning then
      match blockchainScan with
      | .ok result =>
          match result.found, result.transfer with
          | true, some transfer =>
              ({ order1 with status := .completed, updatedAt := now },
               some (updatePaymentStatus paymentDetails order1.orderId
                 { status := some .completed
                   transactionHash := some transfer.transactionHash
                   networkId := some transfer.networkId
                   stablecoin := some transfer.tokenSymbol
                   amount := some transfer.amount
                   senderAddress := none
                   errorMessage := none } now))
          | _, _ => (order1, paymentDetails)
      | .err _ => (order1, paymentDetails)
    else
      (order1, paymentDetails)
  let order2 := afterScan.1
  let record2 := afterScan.2
  let order3 :=
    if (record2.bind (·.meshTransferId)).isSome ∧ order2.status = .processing then
      match meshPoll with
      | .ok content =>
          let newStatus : PaymentStatus :=
            if content.status = "completed" then .completed
            else if content.status = "failed" then .failed
            else order2.status
          if newStatus ≠ order2.status then
            { order2 with status := newStatus, updatedAt := now }
          else
            order2
      | .err _ => order2
    else
      order2
  { httpStatus := 200
    reportedStatus := order3.status
    order := order3
    paymentRecord := record2 }

/-! ## `parseAmount` — `src/src/lib/blockchain.ts`, lines 105-117

The hex input of `parseAmount` is a `BigInt`, modelled by its value
`v : Nat`; `BigInt.prototype.toString()` yields the base-10 digit string,
modelled as the big-endian digit list rendered through `digitChar`.  The
string operations `padStart(decimals, "0")` and `replace(/0+$/, "")` act
digit-wise and are modelled on the digit lists.  The JS divisor
`BigInt(10 ** decimals)` equals `10 ^ decimals` exactly whenever
`decimals ≤ 22` (the double `10 ** d` is exact there), which covers the
6 and 18 used by the caller. -/

/-- ASCII decimal digit for a digit value. -/
def digitChar (d : Nat) : Char := Char.ofNat (48 + d)

/-- Little-endian base-10 digits of `n`, with explicit fuel so the
definition reduces in the kernel.  With `fuel ≥ n` this is the full
digit expansion (no leading zeros, `[]` for `0`). -/
def natDigitsRev (fuel n : Nat) : List Nat :=
  match fuel, n with
  | 0, _ => []
  | _ + 1, 0 => []
  | fuel + 1, n + 1 => ((n + 1) % 10) :: natDigitsRev fuel ((n + 1) / 10)

/-- Big-endian base-10 digit list of `n`, as produced by
`BigInt.prototype.toString()` (so `0 ↦ [0]`). -/
def natToDigits (n : Nat) : List Nat :=
  if n = 0 then [0] else (natDigitsRev n n).reverse

/-- Value of a big-endian digit list. -/
def digitsVal (l : List Nat) : Nat :=
  l.foldl (fun acc d => 10 * acc + d) 0

/-- `padStart(d, "0")` on a digit list. -/
def padStartZeros (d : Nat) (l : List Nat) : List Nat :=
  List.replicate (d - l.length) 0 ++ l

/-- `replace(/0+$/, "")` on a digit list: remove the trailing run of
zeros. -/
def dropTrailingZeros (l : List Nat) : List Nat :=
  (l.reverse.dropWhile (· == 0)).reverse

/-- `parseAmount` (`src/src/lib/blockchain.ts`, lines 105-117) at the
digit level, returning the whole-part digits and the fractional-part
digits (`[]` when no fraction is emitted):

```js
const whole = raw / divisor;
const fraction = raw % divisor;
if (fraction === BigInt(0)) return whole.toString();
const fractionStr = fraction.toString().padStart(decimals, "0").replace(/0+$/, "");
return `${whole}.${fractionStr}`;
``` -/
def parseAmountDigits (v d : Nat) : List Nat × List Nat :=
  let divisor := 10 ^ d
  let whole := v / divisor
  let fraction := v % divisor
  if fraction = 0 then
    (natToDigits whole, [])
  else
    (natToDigits whole, dropTrailingZeros (padStartZeros d (natToDigits fraction)))

/-- The string returned by `parseAmount`. -/
def parseAmount (v d : Nat) : String :=
  let whole := (parseAmountDigits v d).1
  let fraction := (parseAmountDigits v d).2
  if fraction = [] then
    String.mk (whole.map digitChar)
  else
    String.mk (whole.map digitChar) ++ "." ++ String.mk (fraction.map digitChar)

/-! ## Concrete instances used by counterexamples and witnesses -/

/-- A freshly created payment-status record (as written by
`src/unnamed/part_006` lines 150-163) for order `"o1"`. -/
def record0 : PaymentStatusRecord :=
  { orderId := "o1", status := .pending, transactionHash := none,
    senderAddress := none, networkId := none, stablecoin := none,
    amount := none, errorMessage := none, meshTransferId := none,
    updatedAt := 0,
    statusHistory := [{ status := .pending, timestamp := 0,
                        message := some "Order created" }] }

/-- A completing update, as passed by the webhook handlers. -/
def completedUpdate : PaymentStatusUpdates :=
  { status := some .completed, transactionHash := some "0xabc",
    networkId := some "base", stablecoin := some "USDC", amount := some 5,
    senderAddress := none, errorMessage := none }

/-- `record0` after the completing update: a record in terminal status
`completed`. -/
def completedRecord : PaymentStatusRecord :=
  updatePaymentStatus (some record0) "o1" completedUpdate 10

/-- A late/redelivered Mesh webhook payload carrying provider status
`"pending"` for order `"o1"`. -/
def latePendingWebhook : MeshWebhookPayload :=
  { userId := "user_o1", transferStatus := "pending", txHash := some "0xnew",
    chain := some "Base", token := some "USDC", destinationAmount := some 5 }

/-- Open order created first, amount 5.20. -/
def orderFirstCreated : Order :=
  { orderId := "oA", amount := 26 / 5, stablecoin := "USDC",
    merchantWalletAddress := "0xmerchant", status := .pending,
    createdAt := 1, updatedAt := 1, expiresAt := 1000, networkId := "base" }

/-- Open order created second, amount 5.00 — the strictly closer match
for a 5.00 transfer. -/
def orderCloser : Order :=
  { orderId := "oB", amount := 5, stablecoin := "USDC",
    merchantWalletAddress := "0xmerchant", status := .pending,
    createdAt := 2, updatedAt := 2, expiresAt := 1000, networkId := "base" }

/-- An observed 5.00 USDC token transfer to the merchant address. -/
def activityFive : AlchemyActivity :=
  { hash := "0xtx5", fromAddress := "0xcustomer", toAddress := "0xMerchant",
    value := 5, asset := "USDC", category := "token" }

/-- A `scanning` order whose `expiresAt` has passed. -/
def expiredScanningOrder : Order :=
  { orderId := "o2", amount := 5, stablecoin := "USDC",
    merchantWalletAddress := "0xmerchant", status := .scanning,
    createdAt := 0, updatedAt := 0, expiresAt := 10, networkId := "base" }

/-- A `pending` order whose `expiresAt` has passed. -/
def expiredPendingOrder : Order :=
  { orderId := "o3", amount := 5, stablecoin := "USDC",
    merchantWalletAddress := "0xmerchant", status := .pending,
    createdAt := 0, updatedAt := 0, expiresAt := 10, networkId := "base" }

/-- A valid matching on-chain transfer of 5 USDC. -/
def lateTransfer : TransferEvent :=
  { transactionHash := "0xtxlate", blockNumber := 100, networkId := "base",
    tokenSymbol := "USDC", amount := 5 }

/-- A `processing` order tracked through Mesh. -/
def processingOrder : Order :=
  { orderId := "o4", amount := 5, stablecoin := "USDC",
    merchantWalletAddress := "0xmerchant", status := .processing,
    createdAt := 0, updatedAt := 0, expiresAt := 1000, networkId := "base" }

/-- A completed (terminal) order. -/
def completedOrder : Order :=
  { orderId := "o5", amount := 5, stablecoin := "USDC",
    merchantWalletAddress := "0xmerchant", status := .completed,
    createdAt := 0, updatedAt := 50, expiresAt := 1000, networkId := "base" }

/-- An order already expired (terminal). -/
def expiredOrder : Order :=
  { orderId := "o6", amount := 5, stablecoin := "USDC",
    merchantWalletAddress := "0xmerchant", status := .expired,
    createdAt := 0, updatedAt := 20, expiresAt := 10, networkId := "base" }

/-- A payment record carrying a Mesh transfer id. -/
def meshTrackedRecord : PaymentStatusRecord :=
  { orderId := "o4", status := .processing, transactionHash := none,
    senderAddress := none, networkId := none, stablecoin := none,
    amount := none, errorMessage := none, meshTransferId := some "tr-1",
    updatedAt := 0, statusHistory := [] }

/-! ## Theorems -/

/-- C2: Idempotency of terminal transitions in `updatePaymentStatus`
(`src/src/lib/dynamo.ts`, in-memory variant, lines 152-183): re-applying
the same terminal status update to the record it produced appends no
further `statusHistory` entry and leaves `updatedAt` unchanged; and every
call is append-only — the previous history is a prefix of the new one,
with exactly one entry appended when (and only when) the update carries a
status different from the stored one, and none otherwise. -/
theorem updatePaymentStatus_terminal_idempotent
    (r0 : PaymentStatusRecord) (u : PaymentStatusUpdates) (s : PaymentStatus)
    (t1 t2 : Nat) (hs : u.status = some s) (hterm : s.isTerminal = true) :
    ((updatePaymentStatus (some (updatePaymentStatus (some r0) r0.orderId u t1))
        r0.orderId u t2).statusHistory
      = (updatePaymentStatus (some r0) r0.orderId u t1).statusHistory
    ∧ (updatePaymentStatus (some (updatePaymentStatus (some r0) r0.orderId u t1))
        r0.orderId u t2).updatedAt
      = (updatePaymentStatus (some r0) r0.orderId u t1).updatedAt)
    ∧ ∀ (existing : Option PaymentStatusRecord) (oid : String)
        (u' : PaymentStatusUpdates) (t : Nat), ∃ appended,
        (updatePaymentStatus existing oid u' t).statusHistory
          = (existing.map (·.statusHistory)).getD [] ++ appended
        ∧ appended.length ≤ 1
        ∧ (appended = []
            ↔ ¬ ∃ s', u'.status = some s' ∧ existing.map (·.status) ≠ some s') := by
  have _ := hterm
  refine ⟨⟨?_, ?_⟩, ?_⟩
  · simp [updatePaymentStatus, nextStatusHistory, hs]
  · simp [updatePaymentStatus]
  · intro existing oid u' t
    rcases hu : u'.status with _ | s'
    · exact ⟨[], by simp [updatePaymentStatus, nextStatusHistory, hu],
        by simp, by simp [hu]⟩
    · by_cases hch : existing.map (·.status) = some s'
      · refine ⟨[], by simp [updatePaymentStatus, nextStatusHistory, hu, hch], by simp, ?_⟩
        simp only [true_iff]
        rintro ⟨s'', hs'', hne⟩
        obtain rfl : s' = s'' := by injection hs''
        exact hne hch
      · refine ⟨[{ status := s', timestamp := t, message := u'.errorMessage }],
          by simp [updatePaymentStatus, nextStatusHistory, hu, hch], by simp, ?_⟩
        simp only [List.cons_ne_self, false_iff, not_not]
        exact ⟨s', rfl, hch⟩

/-- Witness for `updatePaymentStatus_terminal_idempotent` at a concrete
record, update and timestamps: completing `record0` at time 10 and
redelivering the same completion at time 20. -/
theorem updatePaymentStatus_terminal_idempotent_witness :
    (completedUpdate.status = some PaymentStatus.completed
      ∧ PaymentStatus.isTerminal .completed = true)
    ∧ (((updatePaymentStatus (some (updatePaymentStatus (some record0)
            record0.orderId completedUpdate 10)) record0.orderId
            completedUpdate 20).statusHistory
        = (updatePaymentStatus (some record0) record0.orderId
            completedUpdate 10).statusHistory
      ∧ (updatePaymentStatus (some (updatePaymentStatus (some record0)
            record0.orderId completedUpdate 10)) record0.orderId
            completedUpdate 20).updatedAt
        = (updatePaymentStatus (some record0) record0.orderId
            completedUpdate 10).updatedAt)
    ∧ ∀ (existing : Option PaymentStatusRecord) (oid : String)
        (u' : PaymentStatusUpdates) (t : Nat), ∃ appended,
        (updatePaymentStatus existing oid u' t).statusHistory
          = (existing.map (·.statusHistory)).getD [] ++ appended
        ∧ appended.length ≤ 1
        ∧ (appended = []
            ↔ ¬ ∃ s', u'.status = some s' ∧ existing.map (·.status) ≠ some s')) :=
  ⟨⟨rfl, rfl⟩,
    updatePaymentStatus_terminal_idempotent record0 completedUpdate
      .completed 10 20 rfl rfl⟩

/-- C4: tolerance matching.  For a positive order amount `e`, each
tolerance filter accepts an observed amount `p` exactly when
`|p - e| / e` is at most the tolerance — 1% for the strict variant
(`src/unnamed/part_003`), 5% for the loose variant
(`src/src/lib/blockchain.ts`) and for the webhook matcher predicate
(`src/unnamed/part_006`) — and on the spec's examples with
`amountFiat = 10.00`: observed `10.15` is rejected strictly but accepted
loosely, observed `10.09` is accepted strictly. -/
theorem amountTolerance_spec (p e : ℚ) (he : 0 < e) :
    (strictAmountCheck p e = true ↔ |p - e| / e ≤ 1 / 100)
    ∧ (looseAmountCheck p e = true ↔ |p - e| / e ≤ 5 / 100)
    ∧ (∀ o : Order, o.amount = e → (amountMatches o p = true ↔ |p - e| / e ≤ 5 / 100))
    ∧ (strictAmountCheck (1015 / 100) 10 = false
        ∧ looseAmountCheck (1015 / 100) 10 = true
        ∧ strictAmountCheck (1009 / 100) 10 = true) := by
  have hiff : ∀ tol : ℚ,
      (if |p - e| > e * tol then false else true) = true ↔ |p - e| / e ≤ tol := by
    intro tol
    constructor
    · intro h
      by_cases hgt : |p - e| > e * tol
      · simp [hgt] at h
      · rw [div_le_iff₀ he]
        linarith [not_lt.mp hgt]
    · intro h
      rw [div_le_iff₀ he] at h
      have hle : ¬ |p - e| > e * tol := by rw [not_lt]; linarith
      simp [hle]
  refine ⟨hiff (1 / 100), hiff (5 / 100), ?_,
    by norm_num [strictAmountCheck, abs], by norm_num [looseAmountCheck, abs],
    by norm_num [strictAmountCheck, abs]⟩
  intro o ho
  simp only [amountMatches, ho, abs_sub_comm e p, decide_eq_true_eq]

/-- Witness for `amountTolerance_spec` at the spec's example order
amount `10.00`. -/
theorem amountTolerance_spec_witness :
    (0 : ℚ) < 10
    ∧ ((strictAmountCheck (1009 / 100) 10 = true ↔ |(1009 : ℚ) / 100 - 10| / 10 ≤ 1 / 100)
      ∧ (looseAmountCheck (1009 / 100) 10 = true ↔ |(1009 : ℚ) / 100 - 10| / 10 ≤ 5 / 100)
      ∧ (∀ o : Order, o.amount = 10 →
          (amountMatches o (1009 / 100) = true ↔ |(1009 : ℚ) / 100 - 10| / 10 ≤ 5 / 100))
      ∧ (strictAmountCheck (1015 / 100) 10 = false
          ∧ looseAmountCheck (1015 / 100) 10 = true
          ∧ strictAmountCheck (1009 / 100) 10 = true)) :=
  ⟨by norm_num, amountTolerance_spec (1009 / 100) 10 (by norm_num)⟩

/-- C6 counterexample: with a webhook secret configured and the
signature header absent — so no valid signature is presented — the Mesh
(provider) webhook processes the payload instead of rejecting it, while
the Alchemy webhook rejects the analogous request with 401: the "never
silently accepted" and "consistent policy" parts of the claim fail. -/
theorem meshWebhook_accepts_missing_signature :
    meshWebhookAuth true false false = .processed
    ∧ meshWebhookAuth true false false ≠ .rejected401
    ∧ alchemyWebhookAuth true false false = .rejected401 := by
  decide

/-- C6 amended: the provider (Mesh) webhook rejects with 401 exactly the
requests that carry a signature header failing HMAC verification while a
secret is configured; a request lacking the header is processed even
with a secret configured.  The chain-indexer (Alchemy) webhook rejects
with 401 exactly when a signing key is configured and the header is
missing or fails verification. -/
theorem webhookAuth_rejection_policy :
    ∀ secretConfigured signatureProvided signatureValid : Bool,
      (meshWebhookAuth secretConfigured signatureProvided signatureValid = .rejected401
        ↔ secretConfigured = true ∧ signatureProvided = true ∧ signatureValid = false)
      ∧ (meshWebhookAuth secretConfigured false signatureValid = .processed)
      ∧ (alchemyWebhookAuth secretConfigured signatureProvided signatureValid = .rejected401
        ↔ secretConfigured = true
          ∧ (signatureProvided = false ∨ signatureValid = false)) := by
  decide

/-- C9: `scanOrdersByMerchantAddress` matches the merchant address
case-insensitively (both sides lowercased); a non-empty status filter
additionally requires membership of the order's status; a missing filter
or an empty list returns every order for the address. -/
theorem scanOrders_case_insensitive (orders : List Order) (addr : String) (o : Order) :
    (o ∈ scanOrdersByMerchantAddress orders addr none
      ↔ o ∈ orders ∧ strToLower o.merchantWalletAddress = strToLower addr)
    ∧ (o ∈ scanOrdersByMerchantAddress orders addr (some [])
      ↔ o ∈ orders ∧ strToLower o.merchantWalletAddress = strToLower addr)
    ∧ ∀ l : List PaymentStatus, l ≠ [] →
        (o ∈ scanOrdersByMerchantAddress orders addr (some l)
          ↔ o ∈ orders ∧ strToLower o.merchantWalletAddress = strToLower addr
            ∧ o.status ∈ l) := by
  refine ⟨?_, ?_, ?_⟩
  · simp [scanOrdersByMerchantAddress, List.mem_filter]
  · simp [scanOrdersByMerchantAddress, List.mem_filter]
  · intro l hl
    have hlen : 0 < l.length := List.length_pos.mpr hl
    simp [scanOrdersByMerchantAddress, List.mem_filter, hlen, and_assoc]

/-- Witness for `scanOrders_case_insensitive`: a two-order store queried
with a mixed-case address and the `["pending", "scanning"]` filter. -/
theorem scanOrders_case_insensitive_witness :
    ((orderFirstCreated ∈
        scanOrdersByMerchantAddress [orderFirstCreated, orderCloser] "0xMerchant" none
      ↔ orderFirstCreated ∈ [orderFirstCreated, orderCloser]
        ∧ strToLower orderFirstCreated.merchantWalletAddress = strToLower "0xMerchant")
    ∧ (orderFirstCreated ∈
        scanOrdersByMerchantAddress [orderFirstCreated, orderCloser] "0xMerchant" (some [])
      ↔ orderFirstCreated ∈ [orderFirstCreated, orderCloser]
        ∧ strToLower orderFirstCreated.merchantWalletAddress = strToLower "0xMerchant")
    ∧ ∀ l : List PaymentStatus, l ≠ [] →
        (orderFirstCreated ∈
            scanOrdersByMerchantAddress [orderFirstCreated, orderCloser] "0xMerchant" (some l)
          ↔ orderFirstCreated ∈ [orderFirstCreated, orderCloser]
            ∧ strToLower orderFirstCreated.merchantWalletAddress = strToLower "0xMerchant"
            ∧ orderFirstCreated.status ∈ l))
    ∧ ([PaymentStatus.pending, PaymentStatus.scanning] ≠ ([] : List PaymentStatus)
      ∧ orderFirstCreated ∈
          scanOrdersByMerchantAddress [orderFirstCreated, orderCloser] "0xMerchant"
            (some [PaymentStatus.pending, PaymentStatus.scanning])) :=
  ⟨scanOrders_case_insensitive [orderFirstCreated, orderCloser] "0xMerchant" orderFirstCreated,
    by decide,
    ((scanOrders_case_insensitive [orderFirstCreated, orderCloser] "0xMerchant"
        orderFirstCreated).2.2 [.pending, .scanning] (by decide)).mpr
      ⟨by simp, rfl, by decide⟩⟩

/-- Helper: on a list sorted by a `Nat` key, `find?` returns a
satisfying element whose key is minimal among satisfying elements. -/
theorem find?_key_min {α : Type} (key : α → Nat) (p : α → Bool) :
    ∀ (l : List α) (m : α), l.Pairwise (fun a b => key a ≤ key b) →
      l.find? p = some m → ∀ o ∈ l, p o = true → key m ≤ key o := by
  intro l
  induction l with
  | nil => intro m _ hm; simp at hm
  | cons a t ih =>
    intro m hp hm o ho hpo
    rcases List.pairwise_cons.mp hp with ⟨hhead, htail⟩
    by_cases hpa : p a = true
    · rw [List.find?_cons_of_pos _ hpa] at hm
      obtain rfl : a = m := by injection hm
      rcases List.mem_cons.mp ho with rfl | hot
      · exact le_refl _
      · exact hhead o hot
    · rw [List.find?_cons_of_neg _ (by simpa using hpa)] at hm
      rcases List.mem_cons.mp ho with rfl | hot
      · exact absurd hpo hpa
      · exact ih m htail hm o hot hpo

/-- Helper: on the concrete two-order store, `processActivity` selects
the first-created order. -/
theorem processActivity_example_eq :
    processActivity [orderFirstCreated, orderCloser] activityFive
      = some orderFirstCreated := by
  have h1 : amountMatches orderFirstCreated activityFive.value = true := by
    norm_num [amountMatches, orderFirstCreated, activityFive, abs]
  have hscan : scanOrdersByMerchantAddress [orderFirstCreated, orderCloser]
      (strToLower activityFive.toAddress) (some [.pending, .scanning])
      = [orderFirstCreated, orderCloser] := by
    have ha : strToLower (strToLower activityFive.toAddress) = "0xmerchant" := rfl
    have hb : strToLower orderFirstCreated.merchantWalletAddress = "0xmerchant" := rfl
    have hc : strToLower orderCloser.merchantWalletAddress = "0xmerchant" := rfl
    have hd : orderFirstCreated.status = .pending := rfl
    have he : orderCloser.status = .pending := rfl
    simp [scanOrdersByMerchantAddress, ha, hb, hc, hd, he]
  show (scanOrdersByMerchantAddress [orderFirstCreated, orderCloser]
      (strToLower activityFive.toAddress) (some [.pending, .scanning])).find?
        (fun order => amountMatches order activityFive.value)
      = some orderFirstCreated
  rw [hscan]
  simp only [List.find?]
  rw [h1]

/-- C3 counterexample: two open orders for the same merchant — the first
created with amount 5.20, the second created with amount 5.00 — and an
observed 5.00 transfer.  Both orders tolerance-match, the second is
strictly closer in amount, yet `processActivity` selects the first
created order (`Array.prototype.find`, store order), so the
minimum-absolute-difference rule of the claim fails. -/
theorem processActivity_not_closest_amount :
    amountMatches orderFirstCreated activityFive.value = true
    ∧ amountMatches orderCloser activityFive.value = true
    ∧ |orderCloser.amount - activityFive.value|
        < |orderFirstCreated.amount - activityFive.value|
    ∧ orderFirstCreated.createdAt < orderCloser.createdAt
    ∧ processActivity [orderFirstCreated, orderCloser] activityFive
        = some orderFirstCreated
    ∧ orderFirstCreated.orderId ≠ orderCloser.orderId := by
  refine ⟨by norm_num [amountMatches, orderFirstCreated, activityFive, abs],
    by norm_num [amountMatches, orderCloser, activityFive, abs],
    by norm_num [orderCloser, orderFirstCreated, activityFive, abs],
    by decide, processActivity_example_eq, by decide⟩

/-- C3 amended: when an observed transfer tolerance-matches several open
orders, `processActivity` selects the FIRST matching order in store
(creation) order, not the one with minimum amount difference; since the
store is ordered by `createdAt`, the selected order has the earliest
`createdAt` among all tolerance-matching candidates — in particular, for
two open orders with equal amounts the earlier-created one is matched,
as the claim's tie-break example states. -/
theorem processActivity_earliest_match (orders : List Order)
    (activity : AlchemyActivity) (m : Order)
    (hsorted : orders.Pairwise (fun a b => a.createdAt ≤ b.createdAt))
    (hm : processActivity orders activity = some m) :
    m ∈ scanOrdersByMerchantAddress orders (strToLower activity.toAddress)
        (some [.pending, .scanning])
    ∧ amountMatches m activity.value = true
    ∧ ∀ o ∈ scanOrdersByMerchantAddress orders (strToLower activity.toAddress)
          (some [.pending, .scanning]),
        amountMatches o activity.value = true → m.createdAt ≤ o.createdAt := by
  unfold processActivity at hm
  by_cases hcat : activity.category ≠ "token" ∧ activity.category ≠ "erc20"
  · rw [if_pos hcat] at hm
    exact absurd hm (by simp)
  · rw [if_neg hcat] at hm
    by_cases hasset : ¬ STABLECOINS.contains activity.asset
    · rw [if_pos hasset] at hm
      exact absurd hm (by simp)
    · rw [if_neg hasset] at hm
      have hm' : (scanOrdersByMerchantAddress orders (strToLower activity.toAddress)
          (some [.pending, .scanning])).find?
            (fun order => amountMatches order activity.value) = some m := hm
      have hps : (scanOrdersByMerchantAddress orders (strToLower activity.toAddress)
          (some [.pending, .scanning])).Pairwise
            (fun a b => a.createdAt ≤ b.createdAt) := by
        unfold scanOrdersByMerchantAddress
        exact hsorted.filter _
      have hmem := List.mem_of_find?_eq_some hm'
      have hpm := List.find?_some hm'
      exact ⟨hmem, hpm, find?_key_min (fun o => o.createdAt) _ _ m hps hm'⟩

/-- Witness for `processActivity_earliest_match` on the concrete
two-order store of the counterexample (sorted by `createdAt`). -/
theorem processActivity_earliest_match_witness :
    ([orderFirstCreated, orderCloser].Pairwise (fun a b => a.createdAt ≤ b.createdAt)
      ∧ processActivity [orderFirstCreated, orderCloser] activityFive
          = some orderFirstCreated)
    ∧ (orderFirstCreated ∈ scanOrdersByMerchantAddress [orderFirstCreated, orderCloser]
          (strToLower activityFive.toAddress) (some [.pending, .scanning])
      ∧ amountMatches orderFirstCreated activityFive.value = true
      ∧ ∀ o ∈ scanOrdersByMerchantAddress [orderFirstCreated, orderCloser]
            (strToLower activityFive.toAddress) (some [.pending, .scanning]),
          amountMatches o activityFive.value = true
            → orderFirstCreated.createdAt ≤ o.createdAt) :=
  ⟨⟨by decide, processActivity_example_eq⟩,
    processActivity_earliest_match [orderFirstCreated, orderCloser] activityFive
      orderFirstCreated (by decide) processActivity_example_eq⟩

/-- Helper: in a store whose orders carry pairwise-distinct `orderId`s
(a `Map` keyed by `orderId` guarantees this), two members with the same
`orderId` are the same order. -/
theorem orderId_unique {orders : List Order}
    (hpw : orders.Pairwise (fun a b => a.orderId ≠ b.orderId))
    {a b : Order} (ha : a ∈ orders) (hb : b ∈ orders)
    (hid : a.orderId = b.orderId) : a = b := by
  by_contra hne
  exact hpw.forall (fun x y h => fun e => h e.symm) ha hb hne hid

/-- Helper: an order selected by `processActivity` is a stored order in
status `pending` or `scanning` (the scan filter of the handler). -/
theorem processActivity_sel (orders : List Order) (activity : AlchemyActivity)
    (m : Order) (hm : processActivity orders activity = some m) :
    m ∈ orders ∧ (m.status = .pending ∨ m.status = .scanning) := by
  unfold processActivity at hm
  by_cases hcat : activity.category ≠ "token" ∧ activity.category ≠ "erc20"
  · rw [if_pos hcat] at hm
    exact absurd hm (by simp)
  · rw [if_neg hcat] at hm
    by_cases hasset : ¬ STABLECOINS.contains activity.asset
    · rw [if_pos hasset] at hm
      exact absurd hm (by simp)
    · rw [if_neg hasset] at hm
      have hm' : (scanOrdersByMerchantAddress orders (strToLower activity.toAddress)
          (some [.pending, .scanning])).find?
            (fun order => amountMatches order activity.value) = some m := hm
      have hmem := List.mem_of_find?_eq_some hm'
      unfold scanOrdersByMerchantAddress at hmem
      have hmem' := List.mem_filter.mp hmem
      refine ⟨hmem'.1, ?_⟩
      have hpred := hmem'.2
      by_cases haddr : strToLower m.merchantWalletAddress
          ≠ strToLower (strToLower activity.toAddress)
      · rw [if_pos haddr] at hpred
        cases hpred
      · rw [if_neg haddr] at hpred
        simpa using hpred

/-- Helper: a status-check call on an order that is neither `pending`,
`scanning` nor `processing` leaves both the order and the stored payment
record unchanged — every branch of the handler is skipped. -/
theorem checkStatusGET_inactive (order : Order) (pd : Option PaymentStatusRecord)
    (bs : SignalResult MonitoringResult) (mp : SignalResult MeshTransferContent)
    (now : Nat) (hp : order.status ≠ .pending) (hs : order.status ≠ .scanning)
    (hpr : order.status ≠ .processing) :
    (checkStatusGET order pd bs mp now).order = order
    ∧ (checkStatusGET order pd bs mp now).paymentRecord = pd := by
  have h1 : checkExpiry order now = order := by
    unfold checkExpiry
    rw [if_neg]
    simp [hp]
  simp [checkStatusGET, h1, hp, hs, hpr]

/-- C1 counterexample: a payment-status record in terminal status
`completed`; a late (or redelivered) provider webhook carrying
`TransferStatus = "pending"` is applied unconditionally and moves the
record's status back to `processing` — the ingestion call changes a
terminal record's status instead of being a no-op. -/
theorem meshWebhook_resurrects_terminal_record :
    completedRecord.status = PaymentStatus.completed
    ∧ PaymentStatus.isTerminal completedRecord.status = true
    ∧ (meshWebhookApply latePendingWebhook (some completedRecord) "o1" 200).status
        = PaymentStatus.processing
    ∧ (meshWebhookApply latePendingWebhook (some completedRecord) "o1" 200).status
        ≠ completedRecord.status := by
  refine ⟨rfl, rfl, rfl, by decide⟩

/-- C1 amended: once an ORDER is terminal no channel changes it — a
status-check call returns the order and payment record unchanged, and
the chain-indexer webhook never rewrites a terminal order's store entry
(its matcher only selects `pending`/`scanning` orders); the provider
webhook never writes the order record at all.  (The claim's further
assertion that the terminal PAYMENT-STATUS RECORD is also frozen is
false: see the counterexample.) -/
theorem terminalOrder_no_resurrection :
    (∀ (order : Order) (pd : Option PaymentStatusRecord)
        (bs : SignalResult MonitoringResult) (mp : SignalResult MeshTransferContent)
        (now : Nat), order.status.isTerminal = true →
        (checkStatusGET order pd bs mp now).order = order
        ∧ (checkStatusGET order pd bs mp now).paymentRecord = pd)
    ∧ (∀ (orders : List Order) (activity : AlchemyActivity) (now : Nat) (o : Order),
        orders.Pairwise (fun a b => a.orderId ≠ b.orderId) →
        o ∈ orders → o.status.isTerminal = true →
        ∀ o' ∈ processActivityStore orders activity now,
          o'.orderId = o.orderId → o' = o) := by
  constructor
  · intro order pd bs mp now hterm
    have hp : order.status ≠ .pending := by
      intro h
      rw [h] at hterm
      simp [PaymentStatus.isTerminal] at hterm
    have hs : order.status ≠ .scanning := by
      intro h
      rw [h] at hterm
      simp [PaymentStatus.isTerminal] at hterm
    have hpr : order.status ≠ .processing := by
      intro h
      rw [h] at hterm
      simp [PaymentStatus.isTerminal] at hterm
    exact checkStatusGET_inactive order pd bs mp now hp hs hpr
  · intro orders activity now o hpw ho hterm o' ho' hid
    unfold processActivityStore at ho'
    cases hpa : processActivity orders activity with
    | none =>
        rw [hpa] at ho'
        exact orderId_unique hpw ho' ho hid
    | some m =>
        rw [hpa] at ho'
        obtain ⟨x, hx, hfx⟩ := List.mem_map.mp ho'
        have hidpres : x.orderId = o'.orderId := by
          rw [← hfx]
          unfold applyActivityMatch
          split <;> rfl
        obtain rfl : x = o := orderId_unique hpw hx ho (hidpres.trans hid)
        obtain ⟨hmm, hmst⟩ := processActivity_sel orders activity m hpa
        have hne : ¬ x.orderId = m.orderId := by
          intro he
          obtain rfl : x = m := orderId_unique hpw hx hmm he
          rcases hmst with h | h <;> rw [h] at hterm <;>
            simp [PaymentStatus.isTerminal] at hterm
        rw [← hfx]
        unfold applyActivityMatch
        rw [if_neg hne]

/-- Witness for `terminalOrder_no_resurrection`: a completed order is
untouched by a status-check call (even one whose scan reports a fresh
matching transfer) and by a chain-indexer activity. -/
theorem terminalOrder_no_resurrection_witness :
    (completedOrder.status.isTerminal = true
      ∧ (checkStatusGET completedOrder none
          (.ok { found := true, transfer := some lateTransfer }) (.err "api") 99).order
          = completedOrder
      ∧ (checkStatusGET completedOrder none
          (.ok { found := true, transfer := some lateTransfer }) (.err "api") 99).paymentRecord
          = none)
    ∧ ([completedOrder].Pairwise (fun a b => a.orderId ≠ b.orderId)
      ∧ completedOrder ∈ [completedOrder]
      ∧ ∀ o' ∈ processActivityStore [completedOrder] activityFive 99,
          o'.orderId = completedOrder.orderId → o' = completedOrder) :=
  ⟨⟨rfl,
    (terminalOrder_no_resurrection.1 completedOrder none
      (.ok { found := true, transfer := some lateTransfer }) (.err "api") 99 rfl).1,
    (terminalOrder_no_resurrection.1 completedOrder none
      (.ok { found := true, transfer := some lateTransfer }) (.err "api") 99 rfl).2⟩,
    ⟨by simp, by simp,
      terminalOrder_no_resurrection.2 [completedOrder] activityFive 99
        completedOrder (by simp) (by simp) rfl⟩⟩

/-- C5 counterexample: a `scanning` order past its `expiresAt`, status-
checked at `now = 20`.  The expiry guard tests only `"pending"`, so the
order is NOT transitioned to `expired`; worse, the blockchain branch
still runs, and a valid matching transfer completes the order after its
expiry — both halves of the claim fail for `scanning`. -/
theorem checkStatus_scanning_survives_expiry :
    expiredScanningOrder.status = PaymentStatus.scanning
    ∧ expiredScanningOrder.expiresAt < 20
    ∧ (checkStatusGET expiredScanningOrder none
        (.ok { found := false, transfer := none }) (.err "api") 20).order.status
        = PaymentStatus.scanning
    ∧ (checkStatusGET expiredScanningOrder none
        (.ok { found := true, transfer := some lateTransfer }) (.err "api") 20).order.status
        = PaymentStatus.completed := by
  exact ⟨rfl, by decide, rfl, rfl⟩

/-- C5 amended: the opportunistic expiry check applies only to status
`pending`: a pending order past `expiresAt` is transitioned to `expired`
by a status check (whatever the signal sources report), and once
`expired` no channel changes it — the status-check handler skips every
branch and the matcher never selects an `expired` order.  For any other
status (including `scanning`) or before `expiresAt` the expiry check is
a no-op; in particular an expired-but-`scanning` order is not expired
and can still be completed (see the counterexample). -/
theorem checkExpiry_only_pending :
    (∀ (order : Order) (pd : Option PaymentStatusRecord)
        (bs : SignalResult MonitoringResult) (mp : SignalResult MeshTransferContent)
        (now : Nat), order.expiresAt < now → order.status = .pending →
        (checkStatusGET order pd bs mp now).order.status = .expired)
    ∧ (∀ (order : Order) (now : Nat),
        order.status ≠ .pending ∨ ¬ order.expiresAt < now →
        checkExpiry order now = order)
    ∧ (∀ (order : Order) (pd : Option PaymentStatusRecord)
        (bs : SignalResult MonitoringResult) (mp : SignalResult MeshTransferContent)
        (now : Nat), order.status = .expired →
        (checkStatusGET order pd bs mp now).order = order)
    ∧ (∀ (orders : List Order) (activity : AlchemyActivity) (m : Order),
        processActivity orders activity = some m → m.status ≠ .expired) := by
  refine ⟨?_, ?_, ?_, ?_⟩
  · intro order pd bs mp now hlt hpend
    have h1 : checkExpiry order now
        = { order with status := .expired, updatedAt := now } := by
      unfold checkExpiry
      rw [if_pos ⟨hlt, hpend⟩]
    simp [checkStatusGET, h1]
  · intro order now hdisj
    unfold checkExpiry
    rw [if_neg]
    rcases hdisj with h | h <;> simp [h]
  · intro order pd bs mp now hexp
    exact (checkStatusGET_inactive order pd bs mp now (by simp [hexp])
      (by simp [hexp]) (by simp [hexp])).1
  · intro orders activity m hm
    rcases (processActivity_sel orders activity m hm).2 with h | h <;> simp [h]

/-- Witness for `checkExpiry_only_pending`: a pending order past expiry
is expired by the check; a scanning order past expiry is untouched by
`checkExpiry`; an `expired` order is left unchanged; the concrete
matcher run selects a non-expired order. -/
theorem checkExpiry_only_pending_witness :
    ((expiredPendingOrder.expiresAt < 20 ∧ expiredPendingOrder.status = .pending)
      ∧ (checkStatusGET expiredPendingOrder none
          (.ok { found := true, transfer := some lateTransfer }) (.err "api") 20).order.status
          = .expired)
    ∧ ((expiredScanningOrder.status ≠ .pending ∨ ¬ expiredScanningOrder.expiresAt < 20)
      ∧ checkExpiry expiredScanningOrder 20 = expiredScanningOrder)
    ∧ (expiredOrder.status = .expired
      ∧ (checkStatusGET expiredOrder none (.ok { found := true, transfer := some lateTransfer })
          (.err "api") 20).order = expiredOrder)
    ∧ (processActivity [orderFirstCreated, orderCloser] activityFive = some orderFirstCreated
      ∧ orderFirstCreated.status ≠ .expired) :=
  ⟨⟨⟨by decide, rfl⟩,
    checkExpiry_only_pending.1 expiredPendingOrder none
      (.ok { found := true, transfer := some lateTransfer }) (.err "api") 20
      (by decide) rfl⟩,
    ⟨Or.inl (by decide),
      checkExpiry_only_pending.2.1 expiredScanningOrder 20 (Or.inl (by decide))⟩,
    ⟨rfl,
      checkExpiry_only_pending.2.2.1 expiredOrder none
        (.ok { found := true, transfer := some lateTransfer }) (.err "api") 20 rfl⟩,
    ⟨processActivity_example_eq,
      checkExpiry_only_pending.2.2.2 [orderFirstCreated, orderCloser] activityFive
        orderFirstCreated processActivity_example_eq⟩⟩

/-- C7: transient signal-source failures are masked.  A failing
blockchain scan or provider poll never turns the status-check response
into a 500 — the handler's per-branch `catch` swallows the error — and
with both signal sources failing the call responds 200 reporting the
last committed status (the stored status, after the expiry commit),
leaving the payment record untouched. -/
theorem signalErrors_masked :
    ∀ (order : Order) (pd : Option PaymentStatusRecord) (now : Nat)
      (m1 m2 : String) (bs : SignalResult MonitoringResult)
      (mp : SignalResult MeshTransferContent),
      (checkStatusGET order pd (.err m1) mp now).httpStatus = 200
      ∧ (checkStatusGET order pd bs (.err m2) now).httpStatus = 200
      ∧ (checkStatusGET order pd (.err m1) (.err m2) now).reportedStatus
          = (checkExpiry order now).status
      ∧ (checkStatusGET order pd (.err m1) (.err m2) now).order
          = checkExpiry order now
      ∧ (checkStatusGET order pd (.err m1) (.err m2) now).paymentRecord = pd := by
  intro order pd now m1 m2 bs mp
  refine ⟨rfl, rfl, ?_, ?_, ?_⟩ <;> simp [checkStatusGET]

/-- C8: provider status vocabulary mapping.  The provider webhook maps
`pending → processing`, `succeeded → completed`, `failed → failed` and
writes exactly the mapped status to the payment record; the poll
channel, for a `processing` order with an attached provider transfer id,
maps the polled `completed → completed` and `failed → failed` and makes
no transition on any other polled status. -/
theorem providerStatusMapping :
    (meshStatusMap "pending" = .processing
      ∧ meshStatusMap "succeeded" = .completed
      ∧ meshStatusMap "failed" = .failed)
    ∧ (∀ (p : MeshWebhookPayload) (existing : Option PaymentStatusRecord)
        (oid : String) (now : Nat),
        (meshWebhookApply p existing oid now).status = meshStatusMap p.transferStatus)
    ∧ (∀ (order : Order) (r : PaymentStatusRecord) (tid : String)
        (bs : SignalResult MonitoringResult) (c : MeshTransferContent) (now : Nat),
        order.status = .processing → r.meshTransferId = some tid →
        (checkStatusGET order (some r) bs (.ok c) now).order.status
          = (if c.status = "completed" then .completed
             else if c.status = "failed" then .failed else .processing)) := by
  refine ⟨⟨rfl, rfl, rfl⟩, ?_, ?_⟩
  · intro p existing oid now
    simp [meshWebhookApply, updatePaymentStatus, meshWebhookUpdates]
  · intro order r tid bs c now hst htid
    have hp : order.status ≠ .pending := by simp [hst]
    have h1 : checkExpiry order now = order := by
      unfold checkExpiry
      rw [if_neg]
      simp [hp]
    by_cases hc1 : c.status = "completed"
    · simp [checkStatusGET, h1, hst, htid, hc1]
    · by_cases hc2 : c.status = "failed"
      · simp [checkStatusGET, h1, hst, htid, hc1, hc2]
      · simp [checkStatusGET, h1, hst, htid, hc1, hc2]

/-- Witness for `providerStatusMapping`: a processing Mesh-tracked order
polled with terminal provider status `"completed"` transitions to
`completed`. -/
theorem providerStatusMapping_witness :
    (processingOrder.status = .processing
      ∧ meshTrackedRecord.meshTransferId = some "tr-1")
    ∧ (checkStatusGET processingOrder (some meshTrackedRecord) (.err "rpc")
        (.ok { status := "completed", transactionHash := some "0xmesh" }) 30).order.status
        = (if ("completed" : String) = "completed" then PaymentStatus.completed
           else if ("completed" : String) = "failed" then PaymentStatus.failed
           else PaymentStatus.processing) :=
  ⟨⟨rfl, rfl⟩,
    providerStatusMapping.2.2 processingOrder meshTrackedRecord "tr-1" (.err "rpc")
      { status := "completed", transactionHash := some "0xmesh" } 30 rfl rfl⟩

/-- Helper: `foldl` form of positional value with an accumulator. -/
theorem digitsVal_foldl (l : List Nat) (acc : Nat) :
    l.foldl (fun a d => 10 * a + d) acc = acc * 10 ^ l.length + digitsVal l := by
  induction l generalizing acc with
  | nil => simp [digitsVal]
  | cons d t ih =>
    show t.foldl _ (10 * acc + d) = acc * 10 ^ (d :: t).length + digitsVal (d :: t)
    rw [ih (10 * acc + d)]
    have hd : digitsVal (d :: t) = d * 10 ^ t.length + digitsVal t := by
      show t.foldl (fun a x => 10 * a + x) (10 * 0 + d) = _
      rw [ih (10 * 0 + d)]
      norm_num
    rw [hd, List.length_cons, pow_succ]
    ring

/-- Helper: positional value of an appended digit list. -/
theorem digitsVal_append (l1 l2 : List Nat) :
    digitsVal (l1 ++ l2) = digitsVal l1 * 10 ^ l2.length + digitsVal l2 := by
  show (l1 ++ l2).foldl _ 0 = _
  rw [List.foldl_append]
  exact digitsVal_foldl l2 (digitsVal l1)

/-- Helper: a run of zero digits has value zero. -/
theorem digitsVal_replicate_zero (k : Nat) : digitsVal (List.replicate k 0) = 0 := by
  induction k with
  | zero => rfl
  | succ n ih =>
    show (List.replicate n 0).foldl (fun a d => 10 * a + d) (10 * 0 + 0) = 0
    rw [digitsVal_foldl]
    simpa using ih

/-- Helper: left-padding with zeros preserves the positional value. -/
theorem digitsVal_padStart (d : Nat) (l : List Nat) :
    digitsVal (padStartZeros d l) = digitsVal l := by
  unfold padStartZeros
  rw [digitsVal_append, digitsVal_replicate_zero]
  simp

/-- Helper: padding to `d` digits yields length exactly `d` when the
input is no longer than `d`. -/
theorem padStartZeros_length (d : Nat) (l : List Nat) (h : l.length ≤ d) :
    (padStartZeros d l).length = d := by
  simp [padStartZeros]
  omega

/-- Helper: `natDigitsRev` with sufficient fuel is a faithful base-10
expansion. -/
theorem natDigitsRev_val : ∀ (fuel n : Nat), n ≤ fuel →
    digitsVal (natDigitsRev fuel n).reverse = n := by
  intro fuel
  induction fuel with
  | zero =>
      intro n hn
      obtain rfl : n = 0 := by omega
      rfl
  | succ f ih =>
      intro n hn
      match n with
      | 0 => rfl
      | k + 1 =>
        show digitsVal (((k + 1) % 10 :: natDigitsRev f ((k + 1) / 10)).reverse) = k + 1
        rw [List.reverse_cons, digitsVal_append]
        have hdiv : (k + 1) / 10 ≤ f := by
          have := Nat.div_lt_self (Nat.succ_pos k) (by norm_num : 1 < 10)
          omega
        rw [ih _ hdiv]
        have hone : digitsVal [(k + 1) % 10] = (k + 1) % 10 := by
          show 10 * 0 + (k + 1) % 10 = (k + 1) % 10
          omega
        rw [hone, List.length_singleton, pow_one]
        omega

/-- Helper: a number below `10 ^ k` has at most `k` digits. -/
theorem natDigitsRev_length : ∀ (fuel n k : Nat), n ≤ fuel → n < 10 ^ k →
    (natDigitsRev fuel n).length ≤ k := by
  intro fuel
  induction fuel with
  | zero =>
      intro n k hn _
      obtain rfl : n = 0 := by omega
      simp [natDigitsRev]
  | succ f ih =>
      intro n k hn hk
      match n with
      | 0 => simp [natDigitsRev]
      | m + 1 =>
        have hk1 : 1 ≤ k := by
          by_contra h
          obtain rfl : k = 0 := by omega
          simp at hk
        obtain ⟨j, rfl⟩ : ∃ j, k = j + 1 := ⟨k - 1, by omega⟩
        show ((m + 1) % 10 :: natDigitsRev f ((m + 1) / 10)).length ≤ j + 1
        rw [List.length_cons]
        have hdiv : (m + 1) / 10 ≤ f := by
          have := Nat.div_lt_self (Nat.succ_pos m) (by norm_num : 1 < 10)
          omega
        have hlt : (m + 1) / 10 < 10 ^ j := by
          rw [Nat.div_lt_iff_lt_mul (by norm_num : 0 < 10)]
          calc m + 1 < 10 ^ (j + 1) := hk
          _ = 10 ^ j * 10 := by ring
        have := ih ((m + 1) / 10) j hdiv hlt
        omega

/-- Helper: `natToDigits` decodes back to its input. -/
theorem natToDigits_val (n : Nat) : digitsVal (natToDigits n) = n := by
  unfold natToDigits
  by_cases h : n = 0
  · subst h
    rfl
  · rw [if_neg h]
    exact natDigitsRev_val n n le_rfl

/-- Helper: digit count of a non-zero number below `10 ^ k`. -/
theorem natToDigits_length (n k : Nat) (h0 : n ≠ 0) (h : n < 10 ^ k) :
    (natToDigits n).length ≤ k := by
  unfold natToDigits
  rw [if_neg h0, List.length_reverse]
  exact natDigitsRev_length n n k le_rfl h

/-- Helper: stripping the trailing zeros splits a digit list into the
kept part and a zero run whose length is the difference. -/
theorem dropTrailingZeros_spec (l : List Nat) :
    l = dropTrailingZeros l
        ++ List.replicate (l.length - (dropTrailingZeros l).length) 0
    ∧ (dropTrailingZeros l).length ≤ l.length := by
  have hsplit : l.reverse.takeWhile (· == 0) ++ l.reverse.dropWhile (· == 0)
      = l.reverse := List.takeWhile_append_dropWhile (· == 0) l.reverse
  have hzero : ∀ x ∈ l.reverse.takeWhile (· == 0), x = 0 := by
    intro x hx
    have := List.mem_takeWhile_imp hx
    simpa using this
  have hrep : (l.reverse.takeWhile (· == 0)).reverse
      = List.replicate (l.reverse.takeWhile (· == 0)).length 0 := by
    rw [List.eq_replicate_iff]
    exact ⟨by simp, fun b hb => hzero b (List.mem_reverse.mp hb)⟩
  have hl : l = dropTrailingZeros l ++ (l.reverse.takeWhile (· == 0)).reverse := by
    unfold dropTrailingZeros
    calc l = l.reverse.reverse := (List.reverse_reverse l).symm
    _ = (l.reverse.takeWhile (· == 0) ++ l.reverse.dropWhile (· == 0)).reverse := by
        rw [hsplit]
    _ = (l.reverse.dropWhile (· == 0)).reverse
        ++ (l.reverse.takeWhile (· == 0)).reverse := by
        rw [List.reverse_append]
  have hlen : l.length = (dropTrailingZeros l).length
      + (l.reverse.takeWhile (· == 0)).length := by
    conv_lhs => rw [hl]
    simp
  have hcount : (l.reverse.takeWhile (· == 0)).length
      = l.length - (dropTrailingZeros l).length := by omega
  constructor
  · rw [← hcount]
    conv_lhs => rw [hl]
    rw [hrep]
  · omega

/-- Helper: the head of `dropWhile p` fails `p`. -/
theorem head?_dropWhile {p : Nat → Bool} :
    ∀ (l : List Nat) (x : Nat), (l.dropWhile p).head? = some x → p x = false := by
  intro l
  induction l with
  | nil => intro x hx; simp at hx
  | cons a t ih =>
      intro x hx
      by_cases hpa : p a = true
      · rw [List.dropWhile_cons_of_pos hpa] at hx
        exact ih x hx
      · rw [List.dropWhile_cons_of_neg (by simpa using hpa)] at hx
        simp at hx
        subst hx
        simpa using hpa

/-- Helper: after stripping the trailing zeros, the last kept digit is
non-zero. -/
theorem dropTrailingZeros_getLast (l : List Nat) :
    ∀ x, (dropTrailingZeros l).getLast? = some x → x ≠ 0 := by
  intro x hx
  unfold dropTrailingZeros at hx
  rw [List.getLast?_reverse] at hx
  have := head?_dropWhile (l.reverse) x hx
  simpa using this

/-- C10: `parseAmount` is the exact decimal representation of
`v / 10 ^ d` — the whole digits decode to `v / 10 ^ d`, a fractional
part is emitted iff `v % 10 ^ d ≠ 0`, it has at most `d` digits, ends in
a non-zero digit (trailing zeros stripped), and whole and fraction
together denote exactly `v / 10 ^ d` as a rational, so no rounding
occurs.  The hypothesis restricts `d` to the two values the code uses
(the JS divisor `BigInt(10 ** decimals)` equals `10 ^ decimals` exactly
for `decimals ≤ 22`, which covers both). -/
theorem parseAmount_exact (v d : Nat) (hd : d = 6 ∨ d = 18) :
    digitsVal (parseAmountDigits v d).1 = v / 10 ^ d
    ∧ ((parseAmountDigits v d).2 = [] ↔ v % 10 ^ d = 0)
    ∧ (parseAmountDigits v d).2.length ≤ d
    ∧ (∀ x, (parseAmountDigits v d).2.getLast? = some x → x ≠ 0)
    ∧ ((digitsVal (parseAmountDigits v d).1 : ℚ)
        + (digitsVal (parseAmountDigits v d).2 : ℚ)
            / 10 ^ (parseAmountDigits v d).2.length
        = (v : ℚ) / 10 ^ d)
    ∧ parseAmount v d
        = (if (parseAmountDigits v d).2 = []
           then String.mk ((parseAmountDigits v d).1.map digitChar)
           else String.mk ((parseAmountDigits v d).1.map digitChar) ++ "."
             ++ String.mk ((parseAmountDigits v d).2.map digitChar)) := by
  have _ := hd
  have hpowpos : 0 < 10 ^ d := Nat.pos_pow_of_pos d (by norm_num)
  have hpowd : ((10 : ℚ) ^ d) ≠ 0 := by positivity
  by_cases hfr : v % 10 ^ d = 0
  · have h2 : parseAmountDigits v d = (natToDigits (v / 10 ^ d), []) := by
      unfold parseAmountDigits
      rw [if_pos hfr]
    have hdvd : 10 ^ d ∣ v := Nat.dvd_of_mod_eq_zero hfr
    refine ⟨by simp [h2, natToDigits_val], by simp [h2, hfr], by simp [h2],
      by simp [h2], ?_, rfl⟩
    simp only [h2, natToDigits_val]
    show ((v / 10 ^ d : ℕ) : ℚ) + (digitsVal [] : ℚ) / 10 ^ (List.length ([] : List ℕ))
        = (v : ℚ) / 10 ^ d
    have hz : digitsVal ([] : List ℕ) = 0 := rfl
    rw [hz, List.length_nil, pow_zero]
    rw [Nat.cast_div hdvd (by exact_mod_cast hpowd)]
    push_cast
    ring
  · have hlt : v % 10 ^ d < 10 ^ d := Nat.mod_lt _ hpowpos
    have h2 : parseAmountDigits v d
        = (natToDigits (v / 10 ^ d),
           dropTrailingZeros (padStartZeros d (natToDigits (v % 10 ^ d)))) := by
      unfold parseAmountDigits
      rw [if_neg hfr]
    set padded := padStartZeros d (natToDigits (v % 10 ^ d)) with hpad
    set f := dropTrailingZeros padded with hf
    have hlenpad : padded.length = d :=
      padStartZeros_length d _ (natToDigits_length _ d hfr hlt)
    have hvalpad : digitsVal padded = v % 10 ^ d := by
      rw [hpad, digitsVal_padStart, natToDigits_val]
    obtain ⟨hdecomp, hlenle⟩ := dropTrailingZeros_spec padded
    have hk : digitsVal padded = digitsVal f * 10 ^ (padded.length - f.length) := by
      conv_lhs => rw [hdecomp]
      rw [digitsVal_append, digitsVal_replicate_zero, List.length_replicate]
      ring
    have hflen : f.length ≤ d := by
      rw [← hlenpad]
      exact hlenle
    have hfrac : digitsVal f * 10 ^ (d - f.length) = v % 10 ^ d := by
      rw [← hvalpad, hk, hlenpad]
    have hfne : f ≠ [] := by
      intro h
      rw [h] at hfrac
      have : digitsVal ([] : List ℕ) = 0 := rfl
      rw [this, Nat.zero_mul] at hfrac
      exact hfr hfrac.symm
    refine ⟨by simp [h2, natToDigits_val], ?_, by simpa [h2] using hflen,
      ?_, ?_, rfl⟩
    · simp [h2, hfne, hfr]
    · intro x hx
      rw [h2] at hx
      exact dropTrailingZeros_getLast padded x hx
    · simp only [h2, natToDigits_val]
      show ((v / 10 ^ d : ℕ) : ℚ) + (digitsVal f : ℚ) / 10 ^ f.length
          = (v : ℚ) / 10 ^ d
      have hnat : (v / 10 ^ d) * 10 ^ d + digitsVal f * 10 ^ (d - f.length) = v := by
        rw [hfrac, Nat.mul_comm]
        exact Nat.div_add_mod v (10 ^ d)
      have hnatq : ((v / 10 ^ d : ℕ) : ℚ) * 10 ^ d
          + (digitsVal f : ℚ) * 10 ^ (d - f.length) = (v : ℚ) := by
        exact_mod_cast hnat
      rw [eq_div_iff hpowd, add_mul, div_mul_eq_mul_div, mul_div_assoc]
      have hsplit10 : (10 : ℚ) ^ d / 10 ^ f.length = 10 ^ (d - f.length) := by
        rw [eq_comm]
        exact pow_sub₀ (10 : ℚ) (by norm_num) hflen
      rw [hsplit10]
      exact hnatq

/-- Witness for `parseAmount_exact` at `v = 10150000`, `d = 6`
(the 6-decimal token amount `10.15`). -/
theorem parseAmount_exact_witness :
    ((6 = 6 ∨ 6 = 18)
    ∧ (digitsVal (parseAmountDigits 10150000 6).1 = 10150000 / 10 ^ 6
      ∧ ((parseAmountDigits 10150000 6).2 = [] ↔ 10150000 % 10 ^ 6 = 0)
      ∧ (parseAmountDigits 10150000 6).2.length ≤ 6
      ∧ (∀ x, (parseAmountDigits 10150000 6).2.getLast? = some x → x ≠ 0)
      ∧ ((digitsVal (parseAmountDigits 10150000 6).1 : ℚ)
          + (digitsVal (parseAmountDigits 10150000 6).2 : ℚ)
              / 10 ^ (parseAmountDigits 10150000 6).2.length
          = (10150000 : ℚ) / 10 ^ 6)
      ∧ parseAmount 10150000 6
          = (if (parseAmountDigits 10150000 6).2 = []
             then String.mk ((parseAmountDigits 10150000 6).1.map digitChar)
             else String.mk ((parseAmountDigits 10150000 6).1.map digitChar) ++ "."
               ++ String.mk ((parseAmountDigits 10150000 6).2.map digitChar))))
    ∧ parseAmount 10150000 6 = "10.15" :=
  ⟨⟨Or.inl rfl, parseAmount_exact 10150000 6 (Or.inl rfl)⟩, by decide⟩

end WalletconnectDemo
